import Mathlib

/-!
# QuickRun — verification of the command-resolution and update engines

Shallow embedding of the two algorithmic cores of the QuickRun launcher
(`src-tauri/src/runner.rs` and `src-tauri/src/updater.rs`), with theorems
settling the specification's claims about them.

Conventions of the embedding:
* The filesystem is an explicit predicate `fs : String → Bool` answering
  "is this path an existing regular file?" (Rust's `Path::is_file`).
* Environment variables are explicit `Option String` arguments
  (Rust's `std::env::var(..).ok()`).
* Process spawning and HTTP transfer are I/O and sit outside the pure
  embedding; functions return the value the Rust code would act on
  (the resolved executable path, the assembled `UpdateInfo`, the
  installer file name).
* Rust's `str` primitives (`contains`, `split`, `trim`, `ends_with`,
  `to_lowercase`, `u32::from_str`) are embedded as structurally
  recursive functions on the character list `String.data`, so that every
  definition evaluates by kernel reduction.  `to_lowercase` and `trim`
  are faithful on the ASCII range, which covers every string these
  algorithms handle.
-/

namespace QuickRun

/-! ## Character-list embeddings of the Rust `str` primitives -/

/-- Rust `str::contains(char)`: some character of the string equals `c`. -/
def containsChar (s : String) (c : Char) : Bool := s.data.contains c

/-- Boolean test that `p` is a prefix of `l`. -/
def prefixOfB : List Char → List Char → Bool
  | [], _ => true
  | _ :: _, [] => false
  | a :: as, b :: bs => a == b && prefixOfB as bs

/-- Boolean test that `sub` occurs contiguously inside `l`. -/
def subOfB (sub : List Char) : List Char → Bool
  | [] => sub.isEmpty
  | c :: cs => prefixOfB sub (c :: cs) || subOfB sub cs

/-- Rust `str::contains(&str)`: `pat` occurs contiguously in `s`. -/
def containsSub (s pat : String) : Bool := subOfB pat.data s.data

/-- Rust `str::starts_with(&str)`. -/
def startsWithB (s pat : String) : Bool := prefixOfB pat.data s.data

/-- Rust `str::ends_with(&str)`. -/
def endsWithB (s pat : String) : Bool := prefixOfB pat.data.reverse s.data.reverse

/-- Rust `str::to_lowercase` (ASCII-faithful). -/
def toLowerB (s : String) : String := ⟨s.data.map Char.toLower⟩

/-- Rust `str::trim` (ASCII whitespace, which is all these inputs carry). -/
def trimB (s : String) : String :=
  ⟨((s.data.dropWhile Char.isWhitespace).reverse.dropWhile Char.isWhitespace).reverse⟩

/-- Rust `str::split(char)`: the ordered list of (possibly empty)
fragments of `l` between occurrences of `sep`. -/
def splitChar (sep : Char) : List Char → List (List Char)
  | [] => [[]]
  | c :: cs =>
    if c == sep then [] :: splitChar sep cs
    else
      match splitChar sep cs with
      | [] => [[c]]
      | r :: rs => (c :: r) :: rs

/-- Rust `str::split(char)` packaged on `String`. -/
def splitStr (s : String) (sep : Char) : List String :=
  (splitChar sep s.data).map (fun l => ⟨l⟩)

/-- Rust `u32::from_str` (`str::parse::<u32>()`): optional leading `+`,
then one or more decimal digits, value below `2^32`. -/
def parse_u32 (s : String) : Option Nat :=
  let t : List Char := if startsWithB s "+" then s.data.drop 1 else s.data
  if t.isEmpty then none
  else if t.all Char.isDigit then
    let n := t.foldl (fun acc c => acc * 10 + (c.toNat - 48)) 0
    if n < 4294967296 then some n else none
  else none

/-! ## runner.rs -/

/-- Windows `Path::join`: `dir.join(name)` with the backslash separator. -/
def joinPath (dir name : String) : String := dir ++ "\\" ++ name

/-- Embedding of `is_explicit_path` (runner.rs:16-18):
`input.contains('\\') || input.contains('/') || input.contains(':')`. -/
def is_explicit_path (input : String) : Bool :=
  containsChar input '\\' || containsChar input '/' || containsChar input ':'

/-- The two classifications of user input described by the spec's
PathResolver contract: `classify(input) -> {ExplicitPath, BareCommand}`. -/
inductive InputKind where
  | ExplicitPath : InputKind
  | BareCommand : InputKind
deriving DecidableEq

/-- Classification of input, as performed by `run_command` (runner.rs:126):
explicit path when `is_explicit_path` holds, bare command otherwise. -/
def classify (input : String) : InputKind :=
  if is_explicit_path input then .ExplicitPath else .BareCommand

/-- The loop of `resolve_on_path` (runner.rs:40-58), with the directory
list, the extension list and the filesystem made explicit.  Outer loop
over `paths`; when the command contains a `.` only the exact name is
tried per directory, otherwise the inner loop tries every extension in
order.  Returns the first candidate that is a file. -/
def resolve_core (fs : String → Bool) (paths extensions : List String)
    (command : String) : Option String :=
  paths.findSome? (fun dir =>
    if containsChar command '.' then
      if fs (joinPath dir command) then some (joinPath dir command) else none
    else
      extensions.findSome? (fun ext =>
        if fs (joinPath dir (command ++ ext)) then some (joinPath dir (command ++ ext))
        else none))

/-- Embedding of `resolve_on_path` (runner.rs:28-61): reads `PATHEXT` (defaulting to
`.COM;.EXE;.BAT;.CMD` when unset), returns `none` when `PATH` is unset,
splits both on `;` (Windows path-list separator), then runs the search
loop `resolve_core`. -/
def resolve_on_path (fs : String → Bool) (pathext_var path_var : Option String)
    (command : String) : Option String :=
  let pathext := pathext_var.getD ".COM;.EXE;.BAT;.CMD"
  let extensions := splitStr pathext ';'
  match path_var with
  | none => none
  | some pv => resolve_core fs (splitStr pv ';') extensions command

/-- Embedding of `run_command` (runner.rs:119-144), up to the spawn: trims the input,
rejects empty input, resolves an explicit path by checking `is_file`,
otherwise searches the PATH.  Returns the executable path that would be
handed to `spawn_process`, or the error message. -/
def run_command (fs : String → Bool) (pathext_var path_var : Option String)
    (input : String) : Except String String :=
  let inp := trimB input
  if inp.data.isEmpty then
    .error "Please enter a command"
  else if is_explicit_path inp then
    if fs inp then .ok inp
    else .error ("File not found: " ++ inp)
  else
    match resolve_on_path fs pathext_var path_var inp with
    | some p => .ok p
    | none => .error ("'" ++ inp ++ "' is not recognized as a command or program")

/-! ## updater.rs -/

/-- Embedding of `parse_semver` (updater.rs:49-60): split on `.`, require exactly
three components, parse each as a `u32`. -/
def parse_semver (version : String) : Option (Nat × Nat × Nat) :=
  match splitStr version '.' with
  | [p0, p1, p2] =>
    match parse_u32 p0, parse_u32 p1, parse_u32 p2 with
    | some major, some minor, some patch => some (major, minor, patch)
    | _, _, _ => none
  | _ => none

/-- Embedding of `compare_versions` (updater.rs:66-84): `1` if `a > b`, `-1` if
`a < b`, `0` if equal or either side unparseable. -/
def compare_versions (a b : String) : Int :=
  match parse_semver a with
  | none => 0
  | some (a_maj, a_min, a_pat) =>
    match parse_semver b with
    | none => 0
    | some (b_maj, b_min, b_pat) =>
      if a_maj ≠ b_maj then (if a_maj > b_maj then 1 else -1)
      else if a_min ≠ b_min then (if a_min > b_min then 1 else -1)
      else if a_pat ≠ b_pat then (if a_pat > b_pat then 1 else -1)
      else 0

/-- The strict lexicographic order on (major, minor, patch) triples,
written from the spec's words ("lexicographic comparison over (major,
minor, patch) in that priority order") to be compared against
`compare_versions`. -/
def semLtSpec (a b : Nat × Nat × Nat) : Prop :=
  a.1 < b.1 ∨ (a.1 = b.1 ∧ (a.2.1 < b.2.1 ∨ (a.2.1 = b.2.1 ∧ a.2.2 < b.2.2)))

instance (a b : Nat × Nat × Nat) : Decidable (semLtSpec a b) := by
  unfold semLtSpec; infer_instance

/-- A release asset (updater.rs:42-46): display name and download URL. -/
structure GitHubAsset where
  name : String
  browser_download_url : String
deriving DecidableEq

/-- A GitHub release (updater.rs:33-39). -/
structure GitHubRelease where
  tag_name : String
  body : Option String
  html_url : String
  assets : List GitHubAsset
deriving DecidableEq

/-- The `UpdateInfo` record (updater.rs:16-30). -/
structure UpdateInfo where
  available : Bool
  version : String
  body : String
  current_version : String
  release_url : String
  installer_url : Option String
deriving DecidableEq

/-- First-pass predicate of `find_installer_asset` (updater.rs:90-95):
lowercased name contains "quickrun", ends with ".exe", does not contain
"portable". -/
def installer_first_pass (a : GitHubAsset) : Bool :=
  let n := toLowerB a.name
  containsSub n "quickrun" && endsWithB n ".exe" && !(containsSub n "portable")

/-- Second-pass predicate of `find_installer_asset` (updater.rs:98-103):
lowercased name ends with ".exe" and does not contain "portable". -/
def installer_second_pass (a : GitHubAsset) : Bool :=
  let n := toLowerB a.name
  endsWithB n ".exe" && !(containsSub n "portable")

/-- Embedding of `find_installer_asset` (updater.rs:88-106): first loop returns the
first asset passing the first-pass filter; the fallback loop returns the
first asset passing the second-pass filter; otherwise `none`. -/
def find_installer_asset (assets : List GitHubAsset) : Option String :=
  match assets.find? installer_first_pass with
  | some a => some a.browser_download_url
  | none =>
    match assets.find? installer_second_pass with
    | some a => some a.browser_download_url
    | none => none

/-- Version derivation (updater.rs:167-171):
`tag_name.strip_prefix('v').unwrap_or(tag_name)`. -/
def derived_version (tag : String) : String :=
  if startsWithB tag "v" then ⟨tag.data.drop 1⟩ else tag

/-- reqwest `StatusCode::is_success()`: the 2xx range. -/
def statusIsSuccess (status : Nat) : Bool := 200 ≤ status && status ≤ 299

/-- The releases page URL assembled in the 404 branch (updater.rs:150-153). -/
def releases_page_url : String := "https://github.com/Swatto86/QuickRun/releases"

/-- Embedding of `check_for_update_impl` (updater.rs:112-191) with the network made
explicit: `status` and `bodyText` are the HTTP response status and text,
`parsed` is the JSON decoding of the body (`none` when decoding fails).
Non-success status other than 404 is an error; 404 synthesises a
"no update" result; success compares versions and selects an installer. -/
def check_for_update_core (current_version : String) (status : Nat)
    (bodyText : String) (parsed : Option GitHubRelease) : Except String UpdateInfo :=
  if !(statusIsSuccess status) then
    if status = 404 then
      .ok { available := false
            version := current_version
            body := ""
            current_version := current_version
            release_url := releases_page_url
            installer_url := none }
    else
      .error ("GitHub API returned error " ++ toString status ++ ": " ++ bodyText)
  else
    match parsed with
    | none => .error "Failed to parse release JSON"
    | some release =>
      let latest_version := derived_version release.tag_name
      .ok { available := decide (compare_versions latest_version current_version > 0)
            version := latest_version
            body := release.body.getD ""
            current_version := current_version
            release_url := release.html_url
            installer_url := find_installer_asset release.assets }

/-- The installer file name computed by `download_and_launch_installer`
(updater.rs:251-255): `url.split('/').next_back().unwrap_or("quickrun-setup.exe")`.
`split` always yields at least one fragment, so the final fragment
always exists and the default arm is unreachable. -/
def installer_filename (url : String) : String :=
  match (splitStr url '/').getLast? with
  | some s => s
  | none => "quickrun-setup.exe"

/-! ## Helper lemmas for the search loop -/

/-- Testing candidates one by one and returning the first that satisfies
`fs` is `List.find?` over the mapped candidate list. -/
theorem findSome?_check_eq_find? {α : Type} (fs : String → Bool)
    (f : α → String) (l : List α) :
    (l.findSome? (fun x => if fs (f x) then some (f x) else none)) =
      (l.map f).find? fs := by
  induction l with
  | nil => rfl
  | cons a as ih =>
    simp only [List.findSome?_cons, List.map_cons, List.find?]
    by_cases h : fs (f a)
    · simp [h]
    · simp [h, ih]

/-- The function `List.find?` distributes over append, preferring the left list. -/
theorem find?_append_or {α : Type} (p : α → Bool) (l₁ l₂ : List α) :
    (l₁ ++ l₂).find? p =
      (match l₁.find? p with
       | some x => some x
       | none => l₂.find? p) := by
  induction l₁ with
  | nil => simp
  | cons a as ih =>
    by_cases h : p a
    · simp [List.find?, h]
    · simp only [List.cons_append, List.find?, h]
      exact ih

/-- Searching directory by directory, each directory contributing its
ordered candidate list, is `find?` over the flattened candidate list. -/
theorem findSome?_find?_bind {α : Type} (fs : String → Bool)
    (g : α → List String) (l : List α) :
    (l.findSome? (fun d => (g d).find? fs)) = (l.flatMap g).find? fs := by
  induction l with
  | nil => rfl
  | cons a as ih =>
    simp only [List.findSome?_cons, List.flatMap_cons]
    rw [find?_append_or]
    cases h : (g a).find? fs with
    | none => exact ih
    | some x => rfl

/-! ## Claims about the resolution engine -/

/-- C1: for a bare command with no `.` in its name, resolution tries the
`directory/command+extension` candidates with the directory as the outer
loop and the extension as the inner loop, and returns the first
candidate that is an existing regular file — that is, it equals
`List.find?` over the directory-major flattening of the candidates. -/
theorem C1_resolve_dir_major_order (fs : String → Bool) (dirs exts : List String)
    (command : String) (h : containsChar command '.' = false) :
    resolve_core fs dirs exts command =
      (dirs.flatMap (fun d => exts.map (fun e => joinPath d (command ++ e)))).find? fs := by
  have step : resolve_core fs dirs exts command =
      dirs.findSome? (fun dir => exts.findSome? (fun ext =>
        if fs (joinPath dir (command ++ ext)) then some (joinPath dir (command ++ ext))
        else none)) := by
    unfold resolve_core
    simp [h]
  rw [step]
  have inner : ∀ dir : String,
      (exts.findSome? (fun ext =>
        if fs (joinPath dir (command ++ ext)) then some (joinPath dir (command ++ ext))
        else none)) =
      ((exts.map (fun e => joinPath dir (command ++ e))).find? fs) := fun dir =>
    findSome?_check_eq_find? fs (fun e => joinPath dir (command ++ e)) exts
  simp only [inner]
  exact findSome?_find?_bind fs _ dirs

/-- Witness for C1: with `searchDirs = [D1, D2]`,
`extensions = [.EXE, .BAT]` and only `D2\foo.BAT` existing, resolving
`foo` returns `D2\foo.BAT`. -/
theorem C1_witness :
    containsChar "foo" '.' = false ∧
    resolve_core (fun p => p == "D2\\foo.BAT") ["D1", "D2"] [".EXE", ".BAT"] "foo" =
      ((["D1", "D2"].flatMap
          (fun d => [".EXE", ".BAT"].map (fun e => joinPath d ("foo" ++ e)))).find?
        (fun p => p == "D2\\foo.BAT")) ∧
    resolve_core (fun p => p == "D2\\foo.BAT") ["D1", "D2"] [".EXE", ".BAT"] "foo" =
      some "D2\\foo.BAT" :=
  ⟨by decide,
   C1_resolve_dir_major_order (fun p => p == "D2\\foo.BAT") ["D1", "D2"]
     [".EXE", ".BAT"] "foo" (by decide),
   by decide⟩

/-- C2: classification yields ExplicitPath exactly when the input
contains `\`, `/` or `:`, and BareCommand for every other string. -/
theorem C2_classify_characterisation (input : String) :
    (classify input = InputKind.ExplicitPath ↔
      (containsChar input '\\' = true ∨ containsChar input '/' = true ∨
       containsChar input ':' = true)) ∧
    (classify input = InputKind.BareCommand ↔
      ¬(containsChar input '\\' = true ∨ containsChar input '/' = true ∨
        containsChar input ':' = true)) := by
  unfold classify is_explicit_path
  by_cases h1 : containsChar input '\\' = true <;>
    by_cases h2 : containsChar input '/' = true <;>
      by_cases h3 : containsChar input ':' = true <;>
        simp [h1, h2, h3]

/-- C7: input that is empty after trimming is rejected with the
empty-input error — for every filesystem and every environment, so no
resolution (and hence no spawn) can have taken place. -/
theorem C7_empty_input_rejected (fs : String → Bool)
    (pathext_var path_var : Option String) (input : String)
    (h : trimB input = "") :
    run_command fs pathext_var path_var input = .error "Please enter a command" := by
  unfold run_command
  rw [h]
  rfl

/-- Witness for C7: whitespace-only input is rejected with the
empty-input error even when every path exists. -/
theorem C7_witness :
    trimB "   " = "" ∧
    run_command (fun _ => true) none none "   " = .error "Please enter a command" :=
  ⟨by decide, C7_empty_input_rejected (fun _ => true) none none "   " (by decide)⟩

/-- C8: for a bare command containing a literal `.`, resolution tries
only the exact name `directory/command` per directory in order (it
equals `List.find?` over those exact-name candidates, never touching the
extension list), and returns `none` when no directory holds such a
file. -/
theorem C8_dot_command_exact_only (fs : String → Bool) (dirs exts : List String)
    (command : String) (h : containsChar command '.' = true) :
    resolve_core fs dirs exts command =
      (dirs.map (fun d => joinPath d command)).find? fs ∧
    ((∀ d ∈ dirs, fs (joinPath d command) = false) →
      resolve_core fs dirs exts command = none) := by
  have main : resolve_core fs dirs exts command =
      (dirs.map (fun d => joinPath d command)).find? fs := by
    unfold resolve_core
    simp only [h, if_true]
    exact findSome?_check_eq_find? fs (fun d => joinPath d command) dirs
  refine ⟨main, fun hnone => ?_⟩
  rw [main, List.find?_eq_none]
  intro x hx
  obtain ⟨d, hd, rfl⟩ := List.mem_map.mp hx
  simp [hnone d hd]

/-- Witness for C8: `foo.bat` with no matching file in any directory
resolves to `none`, even with a non-empty extension list. -/
theorem C8_witness :
    containsChar "foo.bat" '.' = true ∧
    resolve_core (fun _ => false) ["D1", "D2"] [".EXE", ".BAT"] "foo.bat" = none :=
  ⟨by decide,
   (C8_dot_command_exact_only (fun _ => false) ["D1", "D2"] [".EXE", ".BAT"]
     "foo.bat" (by decide)).2 (by decide)⟩

/-! ## Claims about the version comparator -/

/-- C9: `parse_semver` succeeds exactly on strings with exactly three
dot-separated components, each parseable as a `u32`; the claim's four
examples evaluate as stated. -/
theorem C9_parse_semver_shape :
    (∀ s : String,
      (parse_semver s).isSome = true ↔
        ((splitStr s '.').length = 3 ∧
         ∀ p ∈ splitStr s '.', (parse_u32 p).isSome = true)) ∧
    parse_semver "1.2.3" = some (1, 2, 3) ∧
    parse_semver "1.2" = none ∧
    parse_semver "a.b.c" = none ∧
    parse_semver "1.2.3.4" = none := by
  refine ⟨fun s => ?_, by decide, by decide, by decide, by decide⟩
  unfold parse_semver
  cases hl : splitStr s '.' with
  | nil => simp
  | cons p0 t0 =>
    cases t0 with
    | nil => simp
    | cons p1 t1 =>
      cases t1 with
      | nil => simp
      | cons p2 t2 =>
        cases t2 with
        | nil =>
          cases h0 : parse_u32 p0 <;> cases h1 : parse_u32 p1 <;>
            cases h2 : parse_u32 p2 <;> simp [h0, h1, h2]
        | cons q t3 => simp

/-- C3: when both sides parse, `compare_versions` returns 1 / -1 / 0
according to the strict lexicographic order on (major, minor, patch);
when either side is unparseable it returns 0. -/
theorem C3_compare_lexicographic (a b : String) :
    (∀ ta tb, parse_semver a = some ta → parse_semver b = some tb →
      ((compare_versions a b = 1 ↔ semLtSpec tb ta) ∧
       (compare_versions a b = -1 ↔ semLtSpec ta tb) ∧
       (compare_versions a b = 0 ↔ ta = tb))) ∧
    ((parse_semver a = none ∨ parse_semver b = none) →
      compare_versions a b = 0) := by
  constructor
  · rintro ⟨amaj, amin, apat⟩ ⟨bmaj, bmin, bpat⟩ ha hb
    unfold compare_versions
    rw [ha, hb]
    unfold semLtSpec
    refine ⟨?_, ?_, ?_⟩ <;>
      (simp only [Prod.mk.injEq]; split_ifs <;> simp_all <;> omega)
  · intro hcase
    unfold compare_versions
    rcases hcase with h | h
    · rw [h]
    · cases hpa : parse_semver a with
      | none => rfl
      | some ta =>
        obtain ⟨amaj, amin, apat⟩ := ta
        rw [h]

/-- Witness for C3: the claim's four example comparisons. -/
theorem C3_witness :
    compare_versions "2.0.0" "1.9.9" = 1 ∧
    compare_versions "1.0.0" "1.0.0" = 0 ∧
    compare_versions "1.0.0" "1.0.1" = -1 ∧
    compare_versions "bad" "1.0.0" = 0 :=
  ⟨(((C3_compare_lexicographic "2.0.0" "1.9.9").1 (2, 0, 0) (1, 9, 9)
      (by decide) (by decide)).1).mpr (by decide),
   (((C3_compare_lexicographic "1.0.0" "1.0.0").1 (1, 0, 0) (1, 0, 0)
      (by decide) (by decide)).2.2).mpr rfl,
   (((C3_compare_lexicographic "1.0.0" "1.0.1").1 (1, 0, 0) (1, 0, 1)
      (by decide) (by decide)).2.1).mpr (by decide),
   (C3_compare_lexicographic "bad" "1.0.0").2 (Or.inl (by decide))⟩

/-- C10: `compare_versions` is antisymmetric — swapping the arguments
negates the result, including when either side is unparseable (both
directions then return 0). -/
theorem C10_compare_antisymm (a b : String) :
    compare_versions a b = -compare_versions b a := by
  unfold compare_versions
  cases hpa : parse_semver a with
  | none =>
    cases hpb : parse_semver b with
    | none => simp
    | some tb => obtain ⟨bmaj, bmin, bpat⟩ := tb; simp
  | some ta =>
    obtain ⟨amaj, amin, apat⟩ := ta
    cases hpb : parse_semver b with
    | none => simp
    | some tb =>
      obtain ⟨bmaj, bmin, bpat⟩ := tb
      dsimp only
      split_ifs <;> omega

/-! ## Claims about the update engine -/

/-- C4: a release fetch answered with HTTP 404 succeeds with a synthetic
"no update" result: `available = false`, version equal to the current
running version, empty notes body, and no installer URL. -/
theorem C4_fetch_404_no_update (current_version bodyText : String)
    (parsed : Option GitHubRelease) :
    check_for_update_core current_version 404 bodyText parsed =
      .ok { available := false
            version := current_version
            body := ""
            current_version := current_version
            release_url := releases_page_url
            installer_url := none } := by
  rfl

/-- C5: installer selection is two-pass: the first asset passing the
first-pass filter wins; failing that, the first asset passing the
second-pass filter; failing both, `none`. -/
theorem C5_installer_two_pass (assets : List GitHubAsset) :
    (∀ a, assets.find? installer_first_pass = some a →
      find_installer_asset assets = some a.browser_download_url) ∧
    (∀ a, assets.find? installer_first_pass = none →
      assets.find? installer_second_pass = some a →
      find_installer_asset assets = some a.browser_download_url) ∧
    (assets.find? installer_first_pass = none →
      assets.find? installer_second_pass = none →
      find_installer_asset assets = none) := by
  unfold find_installer_asset
  exact ⟨fun a h => by rw [h],
         fun a h1 h2 => by rw [h1, h2],
         fun h1 h2 => by rw [h1, h2]⟩

/-- Witness for C5: the claim's asset list selects `QuickRun-Setup.exe`
over the portable executable and the `.msi`. -/
theorem C5_witness :
    find_installer_asset
      [⟨"QuickRun-Portable.exe", "https://e/portable.exe"⟩,
       ⟨"QuickRun-Setup.exe", "https://e/setup.exe"⟩,
       ⟨"QuickRun-Setup.msi", "https://e/setup.msi"⟩] =
      some "https://e/setup.exe" :=
  (C5_installer_two_pass _).1 ⟨"QuickRun-Setup.exe", "https://e/setup.exe"⟩
    (by decide)

/-- The fragment list produced by splitting is never empty, so the
`unwrap_or` default arm of the installer file name computation is
unreachable. -/
theorem splitChar_ne_nil (sep : Char) (l : List Char) :
    splitChar sep l ≠ [] := by
  induction l with
  | nil => simp [splitChar]
  | cons c cs ih =>
    unfold splitChar
    by_cases h : c == sep
    · simp [h]
    · cases hs : splitChar sep cs with
      | nil => exact absurd hs ih
      | cons r rs => simp [h, hs]

/-- C6 (code bug): for a URL whose final path segment is empty the
computed installer file name is the empty string, not the default
`quickrun-setup.exe` — the split always yields at least one fragment, so
the default arm can never fire. -/
theorem C6_empty_segment_no_default :
    installer_filename "https://example.com/download/" = "" ∧
    ("" : String) ≠ "quickrun-setup.exe" ∧
    ∀ url : String, splitStr url '/' ≠ [] := by
  refine ⟨by decide, by decide, fun url => ?_⟩
  unfold splitStr
  intro hmap
  exact splitChar_ne_nil '/' url.data (List.map_eq_nil_iff.mp hmap)

end QuickRun
